import Mathlib

/-!
Verification of the concurrent MCP server framework (rate limiter, request
queue, tool/resource registry, auth scope extraction, session lifecycle,
HTTP JSON-RPC dispatch, and the HMAC message signer) against its
natural-language specification.  Each TypeScript class is shallowly embedded
as pure Lean definitions: instance fields become structure fields, methods
become functions from the old state to the new state, `Date.now()` becomes an
explicit `now : Int` argument, and a method that may `throw` returns the
thrown message alongside the state that persists after the throw
(`Option String × State`), matching exception semantics over a mutable
object.  Opaque callbacks (tool and resource handlers, stream controllers)
are represented by `Nat` tokens; platform cryptography is a function
parameter.
-/

/-- Lookup in a JavaScript `Map` modelled as an insertion-ordered
association list with unique keys: `Map.prototype.get`, `undefined`
becoming `none`. -/
def mapGet {α : Type} : List (String × α) → String → Option α
  | [], _ => none
  | p :: rest, k => if p.1 == k then some p.2 else mapGet rest k

/-- Update `Map.prototype.set`: replace the entry in place when the key exists,
append otherwise (JS maps keep insertion order; keys are unique). -/
def mapSet {α : Type} : List (String × α) → String → α → List (String × α)
  | [], k, v => [(k, v)]
  | p :: rest, k, v => if p.1 == k then (k, v) :: rest else p :: mapSet rest k v

/-- Test `Map.prototype.has`. -/
def mapHas {α : Type} (m : List (String × α)) (k : String) : Bool :=
  (mapGet m k).isSome

/-- Removal `Map.prototype.delete` (ignoring the returned boolean). -/
def mapDelete {α : Type} (m : List (String × α)) (k : String) :
    List (String × α) :=
  m.filter (fun p => ¬ p.1 == k)

/-! ## Rate limiter (`rate-limiter.ts`)

Timestamps are `Int` milliseconds as produced by `Date.now()`. -/

structure RateLimiter where
  windowMs : Int
  maxRequests : Nat
  requestCounts : List (String × List Int) := []
deriving Repr, DecidableEq

namespace RateLimiter

/-- Method `checkLimit(key)` with `Date.now()` passed explicitly.  Returns the
allowed flag together with the mutated limiter. -/
def checkLimit (rl : RateLimiter) (key : String) (now : Int) :
    Bool × RateLimiter :=
  let requests := (mapGet rl.requestCounts key).getD []
  let validRequests := requests.filter (fun time => now - time < rl.windowMs)
  if validRequests.length ≥ rl.maxRequests then
    (false, { rl with requestCounts := mapSet rl.requestCounts key validRequests })
  else
    (true,
      { rl with
        requestCounts := mapSet rl.requestCounts key (validRequests ++ [now]) })

/-- Method `getCurrentCount(key)`. -/
def getCurrentCount (rl : RateLimiter) (key : String) (now : Int) : Nat :=
  (((mapGet rl.requestCounts key).getD []).filter
    (fun time => now - time < rl.windowMs)).length

end RateLimiter

/-- Count of recorded timestamps inside the closed interval
`[t − windowMs, t]`, written from the specification sentence
"`getCurrentCount(k)` equals the count of timestamps within
`[t−windowMs, t]`" for comparison with the source's `getCurrentCount`. -/
def specClosedWindowCount (rl : RateLimiter) (key : String) (t : Int) : Nat :=
  (((mapGet rl.requestCounts key).getD []).filter
    (fun time => t - rl.windowMs ≤ time ∧ time ≤ t)).length

namespace RateLimiter

/-- Method `getTimeUntilSlot(key)`.  `none` models the JavaScript value `Infinity`,
which `Math.min()` produces when `validRequests` is empty (only possible when
`maxRequests = 0`). -/
def getTimeUntilSlot (rl : RateLimiter) (key : String) (now : Int) :
    Option Int :=
  let requests := (mapGet rl.requestCounts key).getD []
  let validRequests := requests.filter (fun time => now - time < rl.windowMs)
  if validRequests.length < rl.maxRequests then
    some 0
  else
    match validRequests.min? with
    | none => none
    | some oldest => some (max 0 (oldest + rl.windowMs - now))

/-- The loop of `waitForSlot(key)`: `while (!this.checkLimit(key)) await
sleep(delay)`.  `nows i` is `Date.now()` at the `i`-th `checkLimit` call (the
exponential-backoff sleep only determines how real time advances between
iterations).  The loop body contains no throwing operation, so the embedding
is a total function; `none` means the loop has not yet exited within `fuel`
iterations (the wait is still in progress), never an error. -/
def waitForSlotRun (key : String) (nows : Nat → Int) :
    Nat → Nat → RateLimiter → Option RateLimiter
  | 0, _, _ => none
  | Nat.succ fuel, i, rl =>
    match rl.checkLimit key (nows i) with
    | (true, rl2) => some rl2
    | (false, rl2) => waitForSlotRun key nows fuel (i + 1) rl2

end RateLimiter

/-- Outcome of the HTTP transport's rate-limit helper
(`checkHttpRateLimit`).  `retryAfterMs = none` models `Infinity`. -/
structure RateCheckResult where
  allowed : Bool
  retryAfterMs : Option Int
deriving Repr, DecidableEq

/-- The value built by the `catch` branch of the `"wait"` mode of
`checkHttpRateLimit` (`{ allowed: false, retryAfterMs:
max(getTimeUntilSlot(key), windowMs) }`) — the "wait timed out" 429 shape. -/
def waitCatchResult (rl : RateLimiter) (key : String) (now windowMs : Int) :
    RateCheckResult :=
  { allowed := false
    retryAfterMs :=
      match rl.getTimeUntilSlot key now with
      | none => none
      | some t => some (max t windowMs) }

/-- The `"wait"` mode of `checkHttpRateLimit`: await `waitForSlot(key)` and
answer `{ allowed: true, retryAfterMs: 0 }`.  The surrounding `try`/`catch`
has nothing to catch — `waitForSlot` is total (no throwing operation in its
body) — so the only outcomes are a completed wait (`some`) or a wait still in
progress (`none`); `waitCatchResult` is produced by no path. -/
def checkHttpRateLimitWait (rl : RateLimiter) (key : String)
    (nows : Nat → Int) (fuel : Nat) : Option (RateCheckResult × RateLimiter) :=
  match RateLimiter.waitForSlotRun key nows fuel 0 rl with
  | some rl2 => some ({ allowed := true, retryAfterMs := some 0 }, rl2)
  | none => none

/-! ## Request queue (`request-queue.ts`) -/

inductive BackpressureStrategy where
  | sleep
  | queue
  | reject
deriving Repr, DecidableEq

structure RequestQueue where
  inFlight : Int := 0
  maxConcurrent : Nat
  strategy : BackpressureStrategy
  sleepMs : Int := 10
  waitQueue : Nat := 0
deriving Repr, DecidableEq

namespace RequestQueue

/-- The `reject` branch of `acquire()`: throw when at capacity (leaving the
queue untouched), else increment `inFlight`.  The first component is the
thrown message. -/
def acquireReject (q : RequestQueue) : Option String × RequestQueue :=
  if q.inFlight ≥ (q.maxConcurrent : Int) then
    (some ("Server at capacity (" ++ toString q.maxConcurrent ++
      " concurrent requests)"), q)
  else
    (none, { q with inFlight := q.inFlight + 1 })

/-- Method `release()`: decrement, and under the `queue` strategy fire the head
waiter (`waitQueue.shift()`), which re-enters its capacity-check loop. -/
def release (q : RequestQueue) : RequestQueue :=
  let q2 := { q with inFlight := q.inFlight - 1 }
  if q2.strategy = BackpressureStrategy.queue ∧ q2.waitQueue > 0 then
    { q2 with waitQueue := q2.waitQueue - 1 }
  else
    q2

/-- Atomic transitions of a queue shared by concurrently running tasks.
JavaScript runs each segment between `await` points without interleaving, so
the atomic units are: the whole `reject`-branch of `acquire` (check plus
increment or throw), a waiter registering in `waitQueue`, a `queue`/`sleep`
acquire passing its `while` guard and incrementing (no `await` between the
final guard check and `inFlight++`), and `release`. -/
inductive Step : RequestQueue → RequestQueue → Prop
  | rejectAcquire (q : RequestQueue) (hs : q.strategy = BackpressureStrategy.reject) :
      Step q (q.acquireReject).2
  | enqueueWaiter (q : RequestQueue) (hs : q.strategy = BackpressureStrategy.queue)
      (hc : q.inFlight ≥ (q.maxConcurrent : Int)) :
      Step q { q with waitQueue := q.waitQueue + 1 }
  | loopAcquire (q : RequestQueue) (hs : q.strategy ≠ BackpressureStrategy.reject)
      (hc : q.inFlight < (q.maxConcurrent : Int)) :
      Step q { q with inFlight := q.inFlight + 1 }
  | releaseStep (q : RequestQueue) : Step q q.release

end RequestQueue

/-! ## JSON values and JavaScript truthiness -/

inductive JsonVal where
  | null
  | boolean (b : Bool)
  | num (n : Int)
  | str (s : String)
  | arr (elems : List JsonVal)
  | obj (fields : List (String × JsonVal))
deriving Repr

/-- JavaScript truthiness of a JSON value (NaN is not representable here). -/
def JsonVal.truthy : JsonVal → Bool
  | .null => false
  | .boolean b => b
  | .num n => n != 0
  | .str s => s != ""
  | .arr _ => true
  | .obj _ => true

/-- A JSON-RPC request id (`string | number`). -/
inductive JsonId where
  | str (s : String)
  | num (n : Int)
deriving Repr, DecidableEq

/-- JavaScript truthiness of an id value: `""` and `0` are falsy. -/
def JsonId.truthy : JsonId → Bool
  | .str s => s != ""
  | .num n => n != 0

/-- Truthiness of an optional value (`undefined` is falsy). -/
def truthyOpt (v : Option JsonVal) : Bool :=
  match v with
  | some v => v.truthy
  | none => false

/-! ## JWT auth provider (`auth/provider.ts` JwtAuthProvider) -/

/-- The claims of a verified JWT payload that `verifyToken` reads.  `scope`
and `scp` keep their raw JSON value because the source branches on their
runtime type; `clientId` is the `client_id` claim. -/
structure JwtPayload where
  sub : Option String := none
  azp : Option String := none
  clientId : Option String := none
  scope : Option JsonVal := none
  scp : Option JsonVal := none
  exp : Option Int := none
deriving Repr

structure AuthInfo where
  subject : String
  clientId : Option String := none
  scopes : List String := []
  expiresAt : Option Int := none
deriving Repr, DecidableEq

namespace JwtAuthProvider

/-- Method `extractScopes(payload)`: a string `scope` claim is split on spaces with
falsy (empty) parts dropped; otherwise an array `scp` claim keeps exactly its
elements of string type; otherwise no scopes. -/
def extractScopes (payload : JwtPayload) : List String :=
  match payload.scope with
  | some (JsonVal.str s) => (s.splitOn " ").filter (fun part => part != "")
  | _ =>
    match payload.scp with
    | some (JsonVal.arr xs) =>
        xs.filterMap (fun v =>
          match v with
          | JsonVal.str s => some s
          | _ => none)
    | _ => []

/-- The `AuthInfo` that `verifyToken` builds from a payload accepted by
`jwtVerify` (JWKS fetch, signature and `iss`/`aud` checks are the external
`jose` library; the `claims` field, the raw payload, is omitted). -/
def buildAuthInfo (payload : JwtPayload) : AuthInfo :=
  { subject := payload.sub.getD "unknown"
    clientId := payload.azp <|> payload.clientId
    scopes := extractScopes payload
    expiresAt := payload.exp }

end JwtAuthProvider

/-! ## Registry and session state (`concurrent-server.ts`) -/

structure MCPTool where
  name : String
  description : String := ""
  inputSchema : JsonVal := JsonVal.obj []
  meta : Option JsonVal := none
deriving Repr

/-- A registered tool: the tool definition spread together with its handler
(`{ ...tool, handler }`).  Handlers are opaque callbacks, modelled as `Nat`
tokens. -/
structure ToolWithHandler extends MCPTool where
  handler : Nat
deriving Repr

structure MCPResource where
  uri : String
  name : String
  description : String := ""
  mimeType : Option String := none
deriving Repr, DecidableEq

structure RegisteredResourceInfo where
  resource : MCPResource
  handler : Nat
deriving Repr, DecidableEq

structure Session where
  createdAt : Int
  lastActivity : Int
deriving Repr, DecidableEq

/-- The mutable fields of `ConcurrentMCPServer` that the verified operations
touch.  SSE clients are opaque stream controllers, modelled as `Nat`
tokens keyed by session id. -/
structure ServerState where
  serverName : String := ""
  serverVersion : String := ""
  started : Bool := false
  validateSchema : Bool := false
  tools : List (String × ToolWithHandler) := []
  schemas : List (String × JsonVal) := []
  resources : List (String × RegisteredResourceInfo) := []
  sessions : List (String × Session) := []
  sseClients : List (String × List Nat) := []
  initRateLimiter : RateLimiter := { maxRequests := 10, windowMs := 60000 }
deriving Repr

namespace ConcurrentMCPServer

def SESSION_TTL_MS : Int := 30 * 60 * 1000

def SESSION_GRACE_PERIOD_MS : Int := 60 * 1000

def MAX_SESSIONS : Nat := 10000

/-- Method `registerTool(tool, handler)`.  The first component is the thrown
message (`none` = returned normally); the second is the instance state after
the call.  `validateResourceUri`-style warnings do not exist here; nothing is
checked except `started`, and `tools.set` overwrites any existing entry. -/
def registerTool (st : ServerState) (tool : MCPTool) (handler : Nat) :
    Option String × ServerState :=
  if st.started then
    (some ("[ConcurrentMCPServer] Cannot register tools after server started. "
      ++ "Call registerTool() before start() or startHttp()."), st)
  else
    let st := { st with
      tools := mapSet st.tools tool.name { toMCPTool := tool, handler := handler } }
    let st :=
      if st.validateSchema then
        { st with schemas := mapSet st.schemas tool.name tool.inputSchema }
      else st
    (none, st)

/-- The `for (const tool of tools)` loop of `registerTools`: each iteration
looks up the handler, throws on a miss (keeping every registration already
performed), else registers tool and schema. -/
def registerToolsLoop (handlers : List (String × Nat)) :
    List MCPTool → ServerState → Option String × ServerState
  | [], st => (none, st)
  | tool :: rest, st =>
    match mapGet handlers tool.name with
    | none => (some ("No handler provided for tool: " ++ tool.name), st)
    | some h =>
      let st := { st with
        tools := mapSet st.tools tool.name { toMCPTool := tool, handler := h } }
      let st :=
        if st.validateSchema then
          { st with schemas := mapSet st.schemas tool.name tool.inputSchema }
        else st
      registerToolsLoop handlers rest st

/-- Method `registerTools(tools, handlers)`. -/
def registerTools (st : ServerState) (tools : List MCPTool)
    (handlers : List (String × Nat)) : Option String × ServerState :=
  if st.started then
    (some ("[ConcurrentMCPServer] Cannot register tools after server started. "
      ++ "Call registerTools() before start() or startHttp()."), st)
  else
    registerToolsLoop handlers tools st

/-- Method `registerToolLive(tool, handler)`: same map update with no `started`
check and no duplicate check. -/
def registerToolLive (st : ServerState) (tool : MCPTool) (handler : Nat) :
    ServerState :=
  let st := { st with
    tools := mapSet st.tools tool.name { toMCPTool := tool, handler := handler } }
  if st.validateSchema then
    { st with schemas := mapSet st.schemas tool.name tool.inputSchema }
  else st

/-- Method `registerResource(resource, handler)`.  `validateResourceUri` only logs
a warning; the duplicate check throws before any mutation.  Both the
`expectResources` branch and the standard branch record the same registry
entry (the SDK call of the standard branch is external). -/
def registerResource (st : ServerState) (resource : MCPResource)
    (handler : Nat) : Option String × ServerState :=
  if mapHas st.resources resource.uri then
    (some ("[ConcurrentMCPServer] Resource already registered: " ++ resource.uri),
      st)
  else
    (none, { st with
      resources := mapSet st.resources resource.uri
        { resource := resource, handler := handler } })

/-- The registration loop of `registerResources` (runs after both
pre-validation passes): per resource, the defensive handler lookup, then
`registerResource` — whose throw keeps all previously registered entries. -/
def registerResourcesLoop (handlers : List (String × Nat)) :
    List MCPResource → ServerState → Option String × ServerState
  | [], st => (none, st)
  | r :: rest, st =>
    match mapGet handlers r.uri with
    | none => (some ("[ConcurrentMCPServer] Handler disappeared for " ++ r.uri), st)
    | some h =>
      match registerResource st r h with
      | (some e, st2) => (some e, st2)
      | (none, st2) => registerResourcesLoop handlers rest st2

/-- Method `registerResources(resources, handlers)`: pre-validate that every URI has
a handler, then that no URI is already in the registry, then register them
all through `registerResource`. -/
def registerResources (st : ServerState) (resources : List MCPResource)
    (handlers : List (String × Nat)) : Option String × ServerState :=
  let missingHandlers :=
    (resources.filter (fun r => ¬ mapHas handlers r.uri)).map MCPResource.uri
  if missingHandlers ≠ [] then
    (some ("[ConcurrentMCPServer] Missing handlers for resources:\n" ++
      String.intercalate "\n" (missingHandlers.map (fun uri => "  - " ++ uri))),
      st)
  else
    let duplicateUris :=
      (resources.filter (fun r => mapHas st.resources r.uri)).map MCPResource.uri
    if duplicateUris ≠ [] then
      (some ("[ConcurrentMCPServer] Resources already registered:\n" ++
        String.intercalate "\n" (duplicateUris.map (fun uri => "  - " ++ uri))),
        st)
    else
      registerResourcesLoop handlers resources st

/-- Method `cleanupSessions()`: one reaper run at time `now`.  The source iterates
the session map deleting every entry with `now - lastActivity >
SESSION_TTL_MS + SESSION_GRACE_PERIOD_MS`, closing and dropping the SSE
clients of each deleted session; deleting the entry under iteration is safe
for a JS `Map`, so the run is equivalent to the partition written here.
Returns (new state, number cleaned, client tokens closed). -/
def cleanupSessions (st : ServerState) (now : Int) :
    ServerState × Nat × List Nat :=
  let ttlWithGrace := SESSION_TTL_MS + SESSION_GRACE_PERIOD_MS
  let expired := st.sessions.filter
    (fun p => now - p.2.lastActivity > ttlWithGrace)
  let surviving := st.sessions.filter
    (fun p => ¬ now - p.2.lastActivity > ttlWithGrace)
  let expiredIds := expired.map Prod.fst
  let closed := (expired.map (fun p => (mapGet st.sseClients p.1).getD [])).flatten
  let sseClients := st.sseClients.filter (fun q => ¬ expiredIds.contains q.1)
  ({ st with sessions := surviving, sseClients := sseClients },
    expired.length, closed)

end ConcurrentMCPServer

/-! ## HTTP JSON-RPC layer (`concurrent-server.ts` handleMcpPost and
`auth/middleware.ts` response helpers) -/

/-- A parsed JSON-RPC request body (`const { id, method, params } = body`). -/
structure RpcIn where
  id : Option JsonId := none
  method : Option String := none
  params : Option (List (String × JsonVal)) := none
deriving Repr

/-- Optional-chaining access `params?.key`. -/
def paramGet (params : Option (List (String × JsonVal))) (k : String) :
    Option JsonVal :=
  match params with
  | none => none
  | some fields => mapGet fields k

/-- A JSON-RPC response envelope: `{ jsonrpc: "2.0", id, result }` or
`{ jsonrpc: "2.0", id, error: { code, message } }`. -/
inductive RpcOut where
  | success (id : Option JsonId) (result : JsonVal)
  | failure (id : Option JsonId) (code : Int) (message : String)
deriving Repr

/-- An HTTP response: status, optional JSON-RPC body (`none` = empty body),
and the response headers the claims mention. -/
structure HttpResponse where
  status : Nat
  body : Option RpcOut := none
  mcpSessionId : Option String := none
  retryAfter : Option Int := none
  wwwAuthenticate : Option String := none
deriving Repr

/-- Escaping of quoted `WWW-Authenticate` parameter values
(backslashes then double quotes). -/
def escapeQuoted (s : String) : String :=
  (s.replace "\\" "\\\\").replace "\"" "\\\""

/-- Helper `createUnauthorizedResponse(resourceMetadataUrl, error?,
errorDescription?)` from `auth/middleware.ts`. -/
def createUnauthorizedResponse (resourceMetadataUrl : String)
    (error : Option String := none) (errorDescription : Option String := none) :
    HttpResponse :=
  let parts := ["Bearer resource_metadata=\"" ++ escapeQuoted resourceMetadataUrl ++ "\""]
  let parts := parts ++ (match error with
    | some e => ["error=\"" ++ escapeQuoted e ++ "\""]
    | none => [])
  let parts := parts ++ (match errorDescription with
    | some d => ["error_description=\"" ++ escapeQuoted d ++ "\""]
    | none => [])
  { status := 401
    body := some (RpcOut.failure none (-32001) (errorDescription.getD "Unauthorized"))
    wwwAuthenticate := some (String.intercalate ", " parts) }

/-- Helper `createForbiddenResponse(requiredScopes)` from `auth/middleware.ts`. -/
def createForbiddenResponse (requiredScopes : List String) : HttpResponse :=
  { status := 403
    body := some (RpcOut.failure none (-32001)
      ("Forbidden: requires scopes " ++ String.intercalate ", " requiredScopes)) }

/-- Predicate `isPreformattedResult(result)`: a non-null object whose `content` is a
non-empty array whose first element is a non-null object carrying `type` and
`text` properties.  (A JS array is an object but has neither a `content`
property nor, as `content[0]`, `type`/`text` properties.) -/
def isPreformattedResult (result : JsonVal) : Bool :=
  match result with
  | JsonVal.obj fields =>
    match mapGet fields "content" with
    | some (JsonVal.arr (first :: _)) =>
      match first with
      | JsonVal.obj ffields => mapHas ffields "type" && mapHas ffields "text"
      | _ => false
    | _ => false
  | _ => false

/-- The error code of an `AuthError` thrown by the auth or scope
middleware. -/
inductive AuthErrorCode where
  | missingToken
  | invalidToken
  | insufficientScope
deriving Repr, DecidableEq

/-- Outcome of `executeToolCall` (the middleware pipeline around the tool
handler, external to the dispatch under verification): a returned value, a
thrown `AuthError`, or any other thrown error. -/
inductive ToolCallOutcome where
  | ok (result : JsonVal)
  | authError (code : AuthErrorCode) (resourceMetadataUrl : String)
      (message : String) (requiredScopes : List String)
  | err (message : String)
deriving Repr

/-- The per-request inputs of `handleMcpPost` that come from outside the
dispatch logic: platform functions (`JSON.stringify`, `crypto` session-id
generation, `Date.now()`, client-IP header resolution), the outcome of the
already-embedded HTTP rate-limit helper, the outcome of `verifyHttpAuth`
(`none` = pass), the middleware pipeline, and resource handler execution
(content after CSP application, or the thrown message). -/
structure HttpPostEnv where
  stringify : JsonVal → String
  exec : JsonVal → JsonVal → ToolCallOutcome
  runResource : String → Except String JsonVal
  authGate : Option HttpResponse := none
  rateLimitAllowed : Bool := true
  rateLimitRetryAfterMs : Int := 0
  clientIp : String := "unknown"
  freshSessionId : String
  now : Int

/-- Truthiness of the destructured `method` field. -/
def methodTruthy (method : Option String) : Bool :=
  match method with
  | some m => m != ""
  | none => false

/-- Truthiness of the destructured `id` field (`!id` in the notification
check: absent, `""` and `0` are all falsy). -/
def idTruthy (id : Option JsonId) : Bool :=
  match id with
  | some i => i.truthy
  | none => false

namespace ConcurrentMCPServer

/-- The `initialize` result body: protocol version, `capabilities.tools =
{}` always, `capabilities.resources = {}` iff any resource is registered,
and `serverInfo`. -/
def initializeResult (st : ServerState) : JsonVal :=
  JsonVal.obj
    [("protocolVersion", JsonVal.str "2025-03-26"),
     ("capabilities", JsonVal.obj
       (("tools", JsonVal.obj []) ::
        (if st.resources.length > 0 then [("resources", JsonVal.obj [])] else []))),
     ("serverInfo", JsonVal.obj
       [("name", JsonVal.str st.serverName),
        ("version", JsonVal.str st.serverVersion)])]

/-- The `initialize` branch of `handleMcpPost`: per-IP rate limit via
`initRateLimiter` (429 on breach, the limiter mutation persisting), the
session-exhaustion guard (cleanup, then 503 when still at `MAX_SESSIONS`),
then session creation returning the `Mcp-Session-Id` header. -/
def handleInitialize (env : HttpPostEnv) (st : ServerState)
    (id : Option JsonId) : HttpResponse × ServerState :=
  match st.initRateLimiter.checkLimit env.clientIp env.now with
  | (false, rl2) =>
    ({ status := 429
       body := some (RpcOut.failure id (-32000)
         "Too many initialize requests. Try again later.") },
      { st with initRateLimiter := rl2 })
  | (true, rl2) =>
    let st := { st with initRateLimiter := rl2 }
    let st :=
      if st.sessions.length ≥ MAX_SESSIONS then (cleanupSessions st env.now).1
      else st
    if st.sessions.length ≥ MAX_SESSIONS then
      ({ status := 503
         body := some (RpcOut.failure id (-32000) "Too many active sessions") },
        st)
    else
      let st := { st with
        sessions := mapSet st.sessions env.freshSessionId
          { createdAt := env.now, lastActivity := env.now } }
      ({ status := 200
         body := some (RpcOut.success id (initializeResult st))
         mcpSessionId := some env.freshSessionId }, st)

/-- The `tools/call` branch body (already past its guard): run the pipeline,
pass a pre-formatted result through, wrap any other value as a text content
block (spreading the tool's `_meta` when truthy), and map thrown errors —
`AuthError` to 401/403 responses, anything else to a JSON-RPC error code
chosen by message prefix. -/
def handleToolsCall (env : HttpPostEnv) (st : ServerState)
    (id : Option JsonId) (nameVal args : JsonVal) :
    HttpResponse × ServerState :=
  match env.exec nameVal args with
  | ToolCallOutcome.ok result =>
    if isPreformattedResult result then
      ({ status := 200, body := some (RpcOut.success id result) }, st)
    else
      let text :=
        match result with
        | JsonVal.str s => s
        | v => env.stringify v
      let metaFields :=
        match nameVal with
        | JsonVal.str toolName =>
          match mapGet st.tools toolName with
          | some tool =>
            match tool.meta with
            | some mv => if mv.truthy then [("_meta", mv)] else []
            | none => []
          | none => []
        | _ => []
      ({ status := 200
         body := some (RpcOut.success id (JsonVal.obj
           (("content", JsonVal.arr
             [JsonVal.obj [("type", JsonVal.str "text"),
                           ("text", JsonVal.str text)]]) :: metaFields))) },
        st)
  | ToolCallOutcome.authError code url message _scopes =>
    match code with
    | AuthErrorCode.missingToken =>
      (createUnauthorizedResponse url (some "missing_token") (some message), st)
    | AuthErrorCode.invalidToken =>
      (createUnauthorizedResponse url (some "invalid_token") (some message), st)
    | AuthErrorCode.insufficientScope =>
      (createForbiddenResponse _scopes, st)
  | ToolCallOutcome.err message =>
    let errorCode : Int :=
      if message.startsWith "Unknown tool" then -32602
      else if message.startsWith "Rate limit" then -32000
      else -32603
    ({ status := 200, body := some (RpcOut.failure id errorCode message) }, st)

/-- The dispatch of `handleMcpPost` after the `initialize` branch and
session validation, in source order: `tools/call` (guarded by a truthy
`params?.name`), then the auth gate for everything else, then `tools/list`,
`resources/list`, `resources/read` (guarded by a truthy `params?.uri`), the
notification check (`method && !id` → 202 empty), missing method (−32600)
and unknown method (−32601). -/
def mcpDispatch (env : HttpPostEnv) (st : ServerState) (body : RpcIn) :
    HttpResponse × ServerState :=
  if body.method = some "tools/call" ∧ truthyOpt (paramGet body.params "name") then
    let nameVal := (paramGet body.params "name").getD JsonVal.null
    let args :=
      match paramGet body.params "arguments" with
      | some v => if v.truthy then v else JsonVal.obj []
      | none => JsonVal.obj []
    handleToolsCall env st body.id nameVal args
  else
    match env.authGate with
    | some resp => (resp, st)
    | none =>
      if body.method = some "tools/list" then
        ({ status := 200
           body := some (RpcOut.success body.id (JsonVal.obj
             [("tools", JsonVal.arr (st.tools.map (fun p =>
               JsonVal.obj
                 ([("name", JsonVal.str p.2.name),
                   ("description", JsonVal.str p.2.description),
                   ("inputSchema", p.2.inputSchema)] ++
                  (match p.2.meta with
                   | some m => [("_meta", m)]
                   | none => [])))))])) }, st)
      else if body.method = some "resources/list" then
        ({ status := 200
           body := some (RpcOut.success body.id (JsonVal.obj
             [("resources", JsonVal.arr (st.resources.map (fun p =>
               JsonVal.obj
                 [("uri", JsonVal.str p.2.resource.uri),
                  ("name", JsonVal.str p.2.resource.name),
                  ("description", JsonVal.str p.2.resource.description),
                  ("mimeType", JsonVal.str
                    (p.2.resource.mimeType.getD "text/html;profile=mcp-app"))])))])) },
          st)
      else if body.method = some "resources/read" ∧
          truthyOpt (paramGet body.params "uri") then
        let uriVal := (paramGet body.params "uri").getD JsonVal.null
        match uriVal with
        | JsonVal.str uri =>
          (match mapGet st.resources uri with
           | none =>
             ({ status := 200
                body := some (RpcOut.failure body.id (-32602)
                  ("Resource not found: " ++ uri)) }, st)
           | some _info =>
             match env.runResource uri with
             | Except.ok content =>
               ({ status := 200
                  body := some (RpcOut.success body.id
                    (JsonVal.obj [("contents", JsonVal.arr [content])])) }, st)
             | Except.error message =>
               ({ status := 200
                  body := some (RpcOut.failure body.id (-32603) message) }, st))
        | v =>
          ({ status := 200
             body := some (RpcOut.failure body.id (-32602)
               ("Resource not found: " ++ env.stringify v)) }, st)
      else if methodTruthy body.method ∧ ¬ idTruthy body.id then
        ({ status := 202, body := none }, st)
      else if ¬ methodTruthy body.method then
        ({ status := 200
           body := some (RpcOut.failure body.id (-32600)
             "Invalid Request: missing \x27method\x27 field") }, st)
      else
        ({ status := 200
           body := some (RpcOut.failure body.id (-32601)
             ("Method not found: " ++ body.method.getD "")) }, st)

/-- Handler `handleMcpPost` from the point where the body has been parsed: HTTP
rate-limit rejection (429 with `Retry-After`), the `initialize` branch,
session validation (404 for a stale `mcp-session-id`, else bump
`lastActivity`), then the method dispatch. -/
def handleMcpPost (env : HttpPostEnv) (st : ServerState)
    (reqSessionId : Option String) (body : RpcIn) :
    HttpResponse × ServerState :=
  if ¬ env.rateLimitAllowed then
    let retryAfter : Int := max 1 ((env.rateLimitRetryAfterMs + 999) / 1000)
    ({ status := 429
       body := some (RpcOut.failure none (-32000)
         ("Rate limit exceeded. Retry after " ++ toString retryAfter ++ "s"))
       retryAfter := some retryAfter }, st)
  else if body.method = some "initialize" then
    handleInitialize env st body.id
  else
    match reqSessionId with
    | some sid =>
      (match mapGet st.sessions sid with
       | none =>
         ({ status := 404
            body := some (RpcOut.failure body.id (-32001)
              "Session not found or expired") }, st)
       | some session =>
         let st := { st with
           sessions := mapSet st.sessions sid
             { session with lastActivity := env.now } }
         mcpDispatch env st body)
    | none => mcpDispatch env st body

end ConcurrentMCPServer

/-! ## HMAC message signer (`security/message-signer.ts`) -/

/-- Encoding of `bytesToHex` on one byte: `b.toString(16).padStart(2, "0")`. -/
def byteToHex (b : Nat) : String :=
  let digits := String.mk (Nat.toDigits 16 b)
  if digits.length < 2 then "0" ++ digits else digits

/-- Function `bytesToHex(bytes)`: lowercase hex encoding. -/
def bytesToHex (bytes : List Nat) : String :=
  String.join (bytes.map byteToHex)

/-- Whether a character matches the class `[0-9a-fA-F]`. -/
def isHexChar (c : Char) : Bool :=
  c.isDigit || ( 'a' ≤ c && c ≤ 'f' ) || ( 'A' ≤ c && c ≤ 'F' )

/-- Numeric value of one hex digit. -/
def hexDigitVal (c : Char) : Nat :=
  if c.isDigit then c.toNat - '0'.toNat
  else if 'a' ≤ c && c ≤ 'f' then c.toNat - 'a'.toNat + 10
  else c.toNat - 'A'.toNat + 10

/-- Parse consecutive 2-character chunks (`parseInt(hex.substring(i, i+2),
16)`). -/
def hexPairs : List Char → List Nat
  | [] => []
  | c1 :: c2 :: rest => (hexDigitVal c1 * 16 + hexDigitVal c2) :: hexPairs rest
  | [c] => [hexDigitVal c]

/-- Function `hexToBytes(hex)`: `null` for odd length or any character outside
`[0-9a-fA-F]` (the regex also rejects the empty string). -/
def hexToBytes (hex : String) : Option (List Nat) :=
  if hex.length % 2 ≠ 0 then none
  else if hex.length = 0 then none
  else if ¬ hex.toList.all isHexChar then none
  else some (hexPairs hex.toList)

/-- A JSON-RPC message as the signer sees it.  `params`, `result` and
`error` hold the `JSON.stringify` serialization of the respective field when
present; `hmac` and `seq` are the `_hmac` and `_seq` fields. -/
structure SignedMessage where
  id : Option String := none
  method : Option String := none
  params : Option String := none
  result : Option String := none
  error : Option String := none
  hmac : Option String := none
  seq : Option Int := none
deriving Repr, DecidableEq

/-- Function `buildHmacPayload(message, seq)`: the canonical string
`seq:id:method:body` where `body` falls back through `params`, `result`,
`error` to the literal two-character string `\x7b\x7d`. -/
def buildHmacPayload (message : SignedMessage) (seq : Int) : String :=
  let idPart := message.id.getD ""
  let methodPart := message.method.getD ""
  let body :=
    match message.params with
    | some p => p
    | none =>
      match message.result with
      | some r => r
      | none =>
        match message.error with
        | some e => e
        | none => "\x7b\x7d"
  toString seq ++ ":" ++ idPart ++ ":" ++ methodPart ++ ":" ++ body

/-- The spread `const { _hmac, _seq, ...clean } = message`. -/
def SignedMessage.strip (m : SignedMessage) : SignedMessage :=
  { m with hmac := none, seq := none }

/-- The result shape of `MessageSigner.verify`. -/
structure VerifyResult where
  valid : Bool
  message : SignedMessage
  error : Option String := none
deriving Repr, DecidableEq

/-- The sequence counters of a `MessageSigner` (the `CryptoKey` is the
external Web Crypto handle; the HMAC it computes is the `mac` parameter of
`sign`/`verify` below). -/
structure MessageSigner where
  sendSeq : Int := 0
  lastRecvSeq : Int := -1
deriving Repr, DecidableEq

namespace MessageSigner

/-- Method `sign(message)`: stamp the current `sendSeq` (post-incremented) and the
hex HMAC of the canonical payload.  `mac` is HMAC-SHA256 under the channel
key, as raw bytes. -/
def sign (mac : String → List Nat) (sg : MessageSigner) (m : SignedMessage) :
    SignedMessage × MessageSigner :=
  let seq := sg.sendSeq
  let payload := buildHmacPayload m seq
  ({ m with seq := some seq, hmac := some (bytesToHex (mac payload)) },
    { sg with sendSeq := sg.sendSeq + 1 })

/-- Method `verify(message)`: reject on missing `_hmac`/`_seq`, on `_seq ≤
lastRecvSeq` (replay), on malformed hex, and on HMAC mismatch
(`crypto.subtle.verify` recomputes the HMAC of the payload and compares);
exactly on acceptance `lastRecvSeq` becomes `_seq`. -/
def verify (mac : String → List Nat) (sg : MessageSigner)
    (m : SignedMessage) : VerifyResult × MessageSigner :=
  let clean := m.strip
  match m.hmac, m.seq with
  | none, _ =>
    ({ valid := false, message := clean,
       error := some "Missing _hmac or _seq field" }, sg)
  | some _, none =>
    ({ valid := false, message := clean,
       error := some "Missing _hmac or _seq field" }, sg)
  | some h, some s =>
    if s ≤ sg.lastRecvSeq then
      ({ valid := false, message := clean,
         error := some ("Replay detected: _seq=" ++ toString s ++
           " <= lastRecvSeq=" ++ toString sg.lastRecvSeq) }, sg)
    else
      match hexToBytes h with
      | none =>
        ({ valid := false, message := clean,
           error := some "Invalid _hmac: not valid hex" }, sg)
      | some hmacBytes =>
        if hmacBytes = mac (buildHmacPayload clean s) then
          ({ valid := true, message := clean }, { sg with lastRecvSeq := s })
        else
          ({ valid := false, message := clean,
             error := some "HMAC signature mismatch" }, sg)

end MessageSigner

/-! ## Helper lemmas -/

theorem mapGet_mapSet_self {α : Type} (m : List (String × α)) (k : String)
    (v : α) : mapGet (mapSet m k v) k = some v := by
  induction m with
  | nil => simp [mapGet, mapSet]
  | cons p rest ih =>
    by_cases hp : p.1 = k
    · simp [mapGet, mapSet, hp]
    · simp [mapGet, mapSet, hp, ih]

theorem mapGet_mapSet_ne {α : Type} (m : List (String × α)) (k k' : String)
    (v : α) (hne : k' ≠ k) : mapGet (mapSet m k v) k' = mapGet m k' := by
  induction m with
  | nil =>
    simp [mapGet, mapSet]
    intro hkk
    exact absurd hkk.symm hne
  | cons p rest ih =>
    by_cases hp : p.1 = k
    · have hkk : ¬ (k = k') := fun hk => hne hk.symm
      simp [mapGet, mapSet, hp, hkk]
    · by_cases hq : p.1 = k'
      · simp [mapGet, mapSet, hp, hq, hne]
      · simp [mapGet, mapSet, hp, hq, ih]

/-- Characterization of one `checkLimit` call: refusal condition and the
per-key timestamp list after the call. -/
theorem checkLimit_run (rl : RateLimiter) (key : String) (now : Int) :
    ((rl.checkLimit key now).1 = false ↔
      rl.maxRequests ≤
        (((mapGet rl.requestCounts key).getD []).filter
          (fun t => now - t < rl.windowMs)).length) ∧
    ((rl.checkLimit key now).1 = false →
      mapGet (rl.checkLimit key now).2.requestCounts key =
        some (((mapGet rl.requestCounts key).getD []).filter
          (fun t => now - t < rl.windowMs))) ∧
    ((rl.checkLimit key now).1 = true →
      mapGet (rl.checkLimit key now).2.requestCounts key =
        some ((((mapGet rl.requestCounts key).getD []).filter
          (fun t => now - t < rl.windowMs)) ++ [now])) := by
  unfold RateLimiter.checkLimit
  by_cases h : (((mapGet rl.requestCounts key).getD []).filter
      (fun t => now - t < rl.windowMs)).length ≥ rl.maxRequests
  · simp [h, mapGet_mapSet_self]
  · simp [h, mapGet_mapSet_self]

/-- The two halves of a Boolean partition of a list have complementary
lengths. -/
theorem length_filter_partition {α : Type} (p : α → Bool) (l : List α) :
    (l.filter (fun x => ¬ p x)).length + (l.filter p).length = l.length := by
  induction l with
  | nil => simp
  | cons a rest ih =>
    by_cases h : p a
    · simp [List.filter, h, ← ih]
      omega
    · simp [List.filter, h, ← ih]
      omega

/-- A completed `waitForSlot` loop ends with a successful `checkLimit`. -/
theorem waitForSlotRun_some (key : String) (nows : Nat → Int) :
    ∀ (fuel i : Nat) (rl rl2 : RateLimiter),
      RateLimiter.waitForSlotRun key nows fuel i rl = some rl2 →
      ∃ (j : Nat) (rlPrev : RateLimiter),
        (rlPrev.checkLimit key (nows j)).1 = true ∧
        rl2 = (rlPrev.checkLimit key (nows j)).2 := by
  intro fuel
  induction fuel with
  | zero => intro i rl rl2 h; simp [RateLimiter.waitForSlotRun] at h
  | succ n ih =>
    intro i rl rl2 h
    unfold RateLimiter.waitForSlotRun at h
    rcases hck : rl.checkLimit key (nows i) with ⟨b, rlmid⟩
    rw [hck] at h
    cases b with
    | true =>
      simp at h
      exact ⟨i, rl, by rw [hck], by rw [hck, ← h]⟩
    | false =>
      simp at h
      exact ih (i + 1) rlmid rl2 h

/-! ## Claim theorems -/

/-- C3 (counterexample): the claim equates `getCurrentCount(k)` at time `t`
with the count of recorded timestamps in the closed interval
`[t − windowMs, t]`.  With `windowMs = 10`, a timestamp recorded at time `0`
lies in the closed interval `[0, 10]` at `t = 10`, yet `getCurrentCount`
(which keeps only `now − time < windowMs`) does not count it. -/
theorem rateLimiter_closed_window_counterexample :
    RateLimiter.getCurrentCount
      { windowMs := 10, maxRequests := 5, requestCounts := [("x", [0])] }
      "x" 10 = 0 ∧
    specClosedWindowCount
      { windowMs := 10, maxRequests := 5, requestCounts := [("x", [0])] }
      "x" 10 = 1 := by
  exact ⟨rfl, rfl⟩

/-- C3 (amended): `checkLimit(k)` keeps exactly the timestamps strictly
inside the window (a timestamp exactly `windowMs` old is discarded as well),
refuses iff the remaining count is at least `maxRequests`, and otherwise
appends the current time and allows; and when every recorded timestamp is
`≤ t`, `getCurrentCount(k)` equals the count of timestamps in the half-open
interval `(t − windowMs, t]`. -/
theorem rateLimiter_window_spec (rl : RateLimiter) (key : String) (now : Int) :
    ((rl.checkLimit key now).1 = false ↔
      rl.maxRequests ≤
        (((mapGet rl.requestCounts key).getD []).filter
          (fun t => now - t < rl.windowMs)).length) ∧
    ((rl.checkLimit key now).1 = false →
      mapGet (rl.checkLimit key now).2.requestCounts key =
        some (((mapGet rl.requestCounts key).getD []).filter
          (fun t => now - t < rl.windowMs))) ∧
    ((rl.checkLimit key now).1 = true →
      mapGet (rl.checkLimit key now).2.requestCounts key =
        some ((((mapGet rl.requestCounts key).getD []).filter
          (fun t => now - t < rl.windowMs)) ++ [now])) ∧
    (∀ t ∈ (mapGet rl.requestCounts key).getD [],
      (t ∈ ((mapGet rl.requestCounts key).getD []).filter
          (fun u => now - u < rl.windowMs) ↔ now - rl.windowMs < t)) ∧
    ((∀ t ∈ (mapGet rl.requestCounts key).getD [], t ≤ now) →
      rl.getCurrentCount key now =
        (((mapGet rl.requestCounts key).getD []).filter
          (fun t => decide (now - rl.windowMs < t ∧ t ≤ now))).length) := by
  refine ⟨(checkLimit_run rl key now).1, (checkLimit_run rl key now).2.1,
    (checkLimit_run rl key now).2.2, ?_, ?_⟩
  · intro t ht
    simp [List.mem_filter, ht]
    omega
  · intro hle
    unfold RateLimiter.getCurrentCount
    congr 1
    apply List.filter_congr
    intro t ht
    have := hle t ht
    rw [decide_eq_decide]
    omega

/-- C3 (witness): the half-open-interval characterization evaluated on a
concrete limiter. -/
theorem rateLimiter_window_spec_witness :
    RateLimiter.getCurrentCount
      { windowMs := 10, maxRequests := 5, requestCounts := [("k", [3])] }
      "k" 11 =
    (([3] : List Int).filter
      (fun t => decide (11 - (10 : Int) < t ∧ t ≤ 11))).length := by
  have h := rateLimiter_window_spec
    { windowMs := 10, maxRequests := 5, requestCounts := [("k", [3])] } "k" 11
  exact h.2.2.2.2 (by decide)

/-- Method `release()` always decrements `inFlight` and never changes
`maxConcurrent`. -/
theorem release_fields (q : RequestQueue) :
    (q.release).inFlight = q.inFlight - 1 ∧
    (q.release).maxConcurrent = q.maxConcurrent := by
  unfold RequestQueue.release
  by_cases hc : q.strategy = BackpressureStrategy.queue ∧ q.waitQueue > 0
  · simp [hc]
  · simp [hc]

/-- The two branches of the `reject` acquire. -/
theorem acquireReject_cases (q : RequestQueue) :
    ((q.maxConcurrent : Int) ≤ q.inFlight →
      q.acquireReject = (some ("Server at capacity (" ++
        toString q.maxConcurrent ++ " concurrent requests)"), q)) ∧
    (q.inFlight < (q.maxConcurrent : Int) →
      q.acquireReject = (none, { q with inFlight := q.inFlight + 1 })) := by
  unfold RequestQueue.acquireReject
  constructor
  · intro h
    rw [if_pos h]
  · intro h
    rw [if_neg (by omega)]

/-- The queue's capacity bound is preserved by every atomic transition. -/
theorem step_preserves_bound {q q2 : RequestQueue} (h : RequestQueue.Step q q2)
    (hb : q.inFlight ≤ (q.maxConcurrent : Int)) :
    q2.inFlight ≤ (q2.maxConcurrent : Int) := by
  cases h with
  | rejectAcquire hs =>
    by_cases hc : (q.maxConcurrent : Int) ≤ q.inFlight
    · rw [(acquireReject_cases q).1 hc]
      exact hb
    · rw [(acquireReject_cases q).2 (by omega)]
      show q.inFlight + 1 ≤ (q.maxConcurrent : Int)
      omega
  | enqueueWaiter hs hc => exact hb
  | loopAcquire hs hc =>
    show q.inFlight + 1 ≤ (q.maxConcurrent : Int)
    omega
  | releaseStep =>
    rw [(release_fields q).1, (release_fields q).2]
    omega

/-- C4: from an idle queue (`inFlight = 0`), after any interleaving of the
atomic acquire/release transitions of any strategy, `inFlight ≤
maxConcurrent` holds at every observation point (the states of the
transition system); and a `reject`-strategy acquire at capacity throws and
returns the queue unchanged. -/
theorem requestQueue_inFlight_bounded (q0 q : RequestQueue)
    (h0 : q0.inFlight = 0)
    (hr : Relation.ReflTransGen RequestQueue.Step q0 q) :
    q.inFlight ≤ (q.maxConcurrent : Int) ∧
    ∀ p : RequestQueue, (p.maxConcurrent : Int) ≤ p.inFlight →
      (p.acquireReject.1.isSome = true ∧ p.acquireReject.2 = p) := by
  constructor
  · induction hr with
    | refl =>
      rw [h0]
      exact Int.ofNat_nonneg _
    | tail _ hstep ih => exact step_preserves_bound hstep ih
  · intro p hp
    rw [(acquireReject_cases p).1 hp]
    exact ⟨rfl, rfl⟩

/-- C4 (witness): the bound and the failing reject-acquire evaluated on
concrete queues. -/
theorem requestQueue_inFlight_bounded_witness :
    ({ inFlight := 0, maxConcurrent := 1,
       strategy := BackpressureStrategy.reject } : RequestQueue).inFlight ≤
      ((1 : Nat) : Int) ∧
    (({ inFlight := 1, maxConcurrent := 1,
        strategy := BackpressureStrategy.reject } : RequestQueue).acquireReject).2 =
      { inFlight := 1, maxConcurrent := 1,
        strategy := BackpressureStrategy.reject } := by
  have h := requestQueue_inFlight_bounded
    { inFlight := 0, maxConcurrent := 1, strategy := BackpressureStrategy.reject }
    { inFlight := 0, maxConcurrent := 1, strategy := BackpressureStrategy.reject }
    rfl Relation.ReflTransGen.refl
  exact ⟨h.1, (h.2 _ (by decide)).2⟩

/-- Method `registerTool` before start never throws and performs a plain
`Map.set`. -/
theorem registerTool_result (st : ServerState) (tool : MCPTool) (h : Nat)
    (hstart : st.started = false) :
    (ConcurrentMCPServer.registerTool st tool h).1 = none ∧
    (ConcurrentMCPServer.registerTool st tool h).2.tools =
      mapSet st.tools tool.name { toMCPTool := tool, handler := h } := by
  unfold ConcurrentMCPServer.registerTool
  rw [if_neg (by simp [hstart])]
  by_cases hv : st.validateSchema
  · simp [hv]
  · simp [hv]

/-- The registration loop of `registerTools` returns normally exactly when
every tool of the batch has a handler. -/
theorem registerToolsLoop_ok (handlers : List (String × Nat)) :
    ∀ (tools : List MCPTool) (st : ServerState),
      (ConcurrentMCPServer.registerToolsLoop handlers tools st).1 = none ↔
        ∀ t ∈ tools, mapHas handlers t.name = true := by
  intro tools
  induction tools with
  | nil => intro st; simp [ConcurrentMCPServer.registerToolsLoop]
  | cons tool rest ih =>
    intro st
    unfold ConcurrentMCPServer.registerToolsLoop
    rcases hh : mapGet handlers tool.name with _ | hv
    · simp only [hh]
      constructor
      · intro hfalse
        exact absurd hfalse (by simp)
      · intro hall
        have := hall tool (List.mem_cons_self tool rest)
        rw [mapHas, hh] at this
        exact absurd this (by simp)
    · simp only [hh]
      rw [ih]
      constructor
      · intro hr t ht
        rcases List.mem_cons.1 ht with rfl | hmem
        · rw [mapHas, hh]
          rfl
        · exact hr t hmem
      · intro hall t ht
        exact hall t (List.mem_cons_of_mem _ ht)

/-- C1 (counterexample): with a tool already registered under the name
`"a"`, a later `registerTool` of another tool also named `"a"` does not
error — it returns normally and silently replaces the previously registered
tool. -/
theorem registerTool_duplicate_counterexample :
    (ConcurrentMCPServer.registerTool
      { tools := [("a", { name := "a", description := "first", handler := 1 })] }
      { name := "a", description := "second" } 2).1 = none ∧
    mapGet (ConcurrentMCPServer.registerTool
      { tools := [("a", { name := "a", description := "first", handler := 1 })] }
      { name := "a", description := "second" } 2).2.tools "a" =
      some { name := "a", description := "second",
             inputSchema := JsonVal.obj [], meta := none, handler := 2 } := by
  exact ⟨rfl, rfl⟩

/-- C1 (amended): `registerTool` and `registerTools` perform no duplicate
check.  Before start, `registerTool` always returns normally, stores the new
tool under its name — overwriting any previous tool of that name — and
leaves every other name unchanged; `registerTools` returns normally exactly
when every tool of the batch has a handler (duplicate names, inside the
batch or against existing registrations, are never an error). -/
theorem registerTool_no_duplicate_check (st : ServerState) (tool : MCPTool)
    (h : Nat) (hstart : st.started = false) :
    ((ConcurrentMCPServer.registerTool st tool h).1 = none ∧
     mapGet (ConcurrentMCPServer.registerTool st tool h).2.tools tool.name =
       some { toMCPTool := tool, handler := h } ∧
     (∀ m, m ≠ tool.name →
       mapGet (ConcurrentMCPServer.registerTool st tool h).2.tools m =
         mapGet st.tools m)) ∧
    (∀ (tools : List MCPTool) (handlers : List (String × Nat)),
      (ConcurrentMCPServer.registerTools st tools handlers).1 = none ↔
        ∀ t ∈ tools, mapHas handlers t.name = true) := by
  constructor
  · obtain ⟨h1, h2⟩ := registerTool_result st tool h hstart
    refine ⟨h1, ?_, ?_⟩
    · rw [h2]
      exact mapGet_mapSet_self _ _ _
    · intro m hm
      rw [h2]
      exact mapGet_mapSet_ne _ _ _ _ hm
  · intro tools handlers
    unfold ConcurrentMCPServer.registerTools
    rw [if_neg (by simp [hstart])]
    exact registerToolsLoop_ok handlers tools st

/-- C1 (witness): the amended behaviour evaluated on a concrete duplicate
registration. -/
theorem registerTool_no_duplicate_check_witness :
    mapGet (ConcurrentMCPServer.registerTool
      { tools := [("a", { name := "a", description := "first", handler := 1 })] }
      { name := "a", description := "second" } 3).2.tools "a" =
      some { name := "a", description := "second",
             inputSchema := JsonVal.obj [], meta := none, handler := 3 } := by
  exact ((registerTool_no_duplicate_check
    { tools := [("a", { name := "a", description := "first", handler := 1 })] }
    { name := "a", description := "second" } 3 rfl).1).2.1

/-- C2 (code bug): `registerResources` pre-validates handlers and clashes
with the existing registry but not duplicates inside the batch itself.  A
batch carrying the same URI twice passes both pre-validations, registers the
first copy, then throws on the second — the call throws AND the registry has
grown by one, contradicting the documented atomicity ("a partial failure
must leave the registry untouched"). -/
theorem registerResources_intra_batch_not_atomic :
    (ConcurrentMCPServer.registerResources ({} : ServerState)
      [{ uri := "ui://test/a", name := "A" }, { uri := "ui://test/a", name := "A" }]
      [("ui://test/a", 1)]).1 =
      some "[ConcurrentMCPServer] Resource already registered: ui://test/a" ∧
    (ConcurrentMCPServer.registerResources ({} : ServerState)
      [{ uri := "ui://test/a", name := "A" }, { uri := "ui://test/a", name := "A" }]
      [("ui://test/a", 1)]).2.resources.length = 1 ∧
    ({} : ServerState).resources.length = 0 := by
  exact ⟨rfl, rfl, rfl⟩

/-- C5 (counterexample): a verified payload whose `scp` array contains an
empty string yields an `AuthInfo` whose scopes contain the empty string —
`scp.filter((s) => typeof s === "string")` keeps `""`. -/
theorem authInfo_empty_scope_counterexample :
    "" ∈ (JwtAuthProvider.buildAuthInfo
      { scp := some (JsonVal.arr [JsonVal.str "read", JsonVal.str ""]) }).scopes := by
  simp [JwtAuthProvider.buildAuthInfo, JwtAuthProvider.extractScopes]

/-- C5 (amended): `subject` is the `sub` claim or `"unknown"` when absent;
scopes from a string `scope` claim are its space-separated parts with
empties filtered (so never contain `""`); scopes from an array `scp` claim
are exactly its string elements — empty strings included; with neither,
scopes are empty. -/
theorem authInfo_subject_scopes (sub azp cid : Option String)
    (scopev scpv : Option JsonVal) (expv : Option Int) :
    (sub = none → (JwtAuthProvider.buildAuthInfo
      (⟨sub, azp, cid, scopev, scpv, expv⟩ : JwtPayload)).subject = "unknown") ∧
    (∀ s, sub = some s → (JwtAuthProvider.buildAuthInfo
      (⟨sub, azp, cid, scopev, scpv, expv⟩ : JwtPayload)).subject = s) ∧
    (∀ s, scopev = some (JsonVal.str s) →
      ((JwtAuthProvider.buildAuthInfo
        (⟨sub, azp, cid, scopev, scpv, expv⟩ : JwtPayload)).scopes =
          (s.splitOn " ").filter (fun part => part != "") ∧
       "" ∉ (JwtAuthProvider.buildAuthInfo
        (⟨sub, azp, cid, scopev, scpv, expv⟩ : JwtPayload)).scopes)) ∧
    ((∀ s, scopev ≠ some (JsonVal.str s)) →
      ∀ xs, scpv = some (JsonVal.arr xs) →
        (JwtAuthProvider.buildAuthInfo
          (⟨sub, azp, cid, scopev, scpv, expv⟩ : JwtPayload)).scopes =
          xs.filterMap (fun v =>
            match v with
            | JsonVal.str s => some s
            | _ => none)) ∧
    ((∀ s, scopev ≠ some (JsonVal.str s)) →
      (∀ xs, scpv ≠ some (JsonVal.arr xs)) →
        (JwtAuthProvider.buildAuthInfo
          (⟨sub, azp, cid, scopev, scpv, expv⟩ : JwtPayload)).scopes = []) := by
  refine ⟨?_, ?_, ?_, ?_, ?_⟩
  · intro h
    subst h
    rfl
  · intro s h
    subst h
    rfl
  · intro s h
    subst h
    constructor
    · rfl
    · intro hmem
      have := List.of_mem_filter hmem
      simp at this
  · intro hns xs h
    subst h
    show JwtAuthProvider.extractScopes _ = _
    unfold JwtAuthProvider.extractScopes
    split
    · rename_i s heq
      exact absurd heq (hns s)
    · rfl
  · intro hns hna
    show JwtAuthProvider.extractScopes _ = _
    unfold JwtAuthProvider.extractScopes
    split
    · rename_i s heq
      exact absurd heq (hns s)
    · split
      · rename_i xs heq
        exact absurd heq (hna xs)
      · rfl

/-- C5 (witness): subject fallback and space-splitting evaluated on a
concrete payload. -/
theorem authInfo_subject_scopes_witness :
    (JwtAuthProvider.buildAuthInfo
      (⟨none, none, none, some (JsonVal.str "read  write"), none, none⟩ :
        JwtPayload)).subject = "unknown" ∧
    "" ∉ (JwtAuthProvider.buildAuthInfo
      (⟨none, none, none, some (JsonVal.str "read  write"), none, none⟩ :
        JwtPayload)).scopes := by
  have h := authInfo_subject_scopes none none none
    (some (JsonVal.str "read  write")) none none
  exact ⟨h.1 rfl, (h.2.2.1 "read  write" rfl).2⟩

/-- C6: an `initialize` POST from a client IP whose per-IP budget (10 per
60 s window) is already consumed is answered 429 with JSON-RPC error
`-32000` "Too many initialize requests. Try again later." and the sessions
map is unchanged — no session is created. -/
theorem initialize_rate_limited (env : HttpPostEnv) (st : ServerState)
    (reqSessionId : Option String) (body : RpcIn)
    (hm : body.method = some "initialize")
    (hallow : env.rateLimitAllowed = true)
    (hmax : st.initRateLimiter.maxRequests = 10)
    (_hwin : st.initRateLimiter.windowMs = 60000)
    (hbudget : 10 ≤ (((mapGet st.initRateLimiter.requestCounts env.clientIp).getD
        []).filter (fun t => env.now - t < st.initRateLimiter.windowMs)).length) :
    (ConcurrentMCPServer.handleMcpPost env st reqSessionId body).1.status = 429 ∧
    (ConcurrentMCPServer.handleMcpPost env st reqSessionId body).1.body =
      some (RpcOut.failure body.id (-32000)
        "Too many initialize requests. Try again later.") ∧
    (ConcurrentMCPServer.handleMcpPost env st reqSessionId body).2.sessions =
      st.sessions := by
  have hfalse : (st.initRateLimiter.checkLimit env.clientIp env.now).1 = false := by
    rw [(checkLimit_run st.initRateLimiter env.clientIp env.now).1, hmax]
    exact hbudget
  rcases hck : st.initRateLimiter.checkLimit env.clientIp env.now with ⟨b, rl2⟩
  rw [hck] at hfalse
  simp only at hfalse
  subst hfalse
  unfold ConcurrentMCPServer.handleMcpPost ConcurrentMCPServer.handleInitialize
  simp [hallow, hm, hck]

/-- C6 (witness): a concrete rejected `initialize`. -/
theorem initialize_rate_limited_witness :
    (ConcurrentMCPServer.handleMcpPost
      { stringify := fun _ => "",
        exec := fun _ _ => ToolCallOutcome.err "",
        runResource := fun _ => Except.error "",
        freshSessionId := "s",
        now := 0,
        clientIp := "ip" }
      { initRateLimiter :=
          { maxRequests := 10,
            windowMs := 60000,
            requestCounts := [("ip", [0, 0, 0, 0, 0, 0, 0, 0, 0, 0])] } }
      none { method := some "initialize" }).1.status = 429 := by
  exact (initialize_rate_limited
    { stringify := fun _ => "",
      exec := fun _ _ => ToolCallOutcome.err "",
      runResource := fun _ => Except.error "",
      freshSessionId := "s",
      now := 0,
      clientIp := "ip" }
    { initRateLimiter :=
        { maxRequests := 10,
          windowMs := 60000,
          requestCounts := [("ip", [0, 0, 0, 0, 0, 0, 0, 0, 0, 0])] } }
    none { method := some "initialize" }
    rfl rfl rfl rfl (by decide)).1

/-- The two halves of a decidable partition of a list have complementary
lengths. -/
theorem length_filter_partition_prop {α : Type} (p : α → Prop)
    [DecidablePred p] (l : List α) :
    (l.filter (fun x => decide (¬ p x))).length +
      (l.filter (fun x => decide (p x))).length = l.length := by
  induction l with
  | nil => simp
  | cons a rest ih =>
    by_cases h : p a
    · simp [List.filter, h, ← ih]
      omega
    · simp [List.filter, h, ← ih]
      omega

/-- C7: one reaper run deletes exactly the sessions whose `lastActivity`
lies more than `SESSION_TTL_MS + SESSION_GRACE_PERIOD_MS` in the past — a
session within TTL plus grace is never removed — and closes and removes the
SSE clients of the deleted sessions only; the reported count is the number
of sessions deleted. -/
theorem cleanupSessions_spec (st : ServerState) (now : Int) :
    (∀ id s, (id, s) ∈ (ConcurrentMCPServer.cleanupSessions st now).1.sessions ↔
      ((id, s) ∈ st.sessions ∧
        now - s.lastActivity ≤
          ConcurrentMCPServer.SESSION_TTL_MS +
            ConcurrentMCPServer.SESSION_GRACE_PERIOD_MS)) ∧
    (∀ id cs, (id, cs) ∈ (ConcurrentMCPServer.cleanupSessions st now).1.sseClients ↔
      ((id, cs) ∈ st.sseClients ∧
        ¬ ∃ s, (id, s) ∈ st.sessions ∧
          ConcurrentMCPServer.SESSION_TTL_MS +
            ConcurrentMCPServer.SESSION_GRACE_PERIOD_MS < now - s.lastActivity)) ∧
    (∀ c, c ∈ (ConcurrentMCPServer.cleanupSessions st now).2.2 ↔
      ∃ id s, (id, s) ∈ st.sessions ∧
        ConcurrentMCPServer.SESSION_TTL_MS +
          ConcurrentMCPServer.SESSION_GRACE_PERIOD_MS < now - s.lastActivity ∧
        c ∈ (mapGet st.sseClients id).getD []) ∧
    (ConcurrentMCPServer.cleanupSessions st now).2.1 +
      (ConcurrentMCPServer.cleanupSessions st now).1.sessions.length =
        st.sessions.length := by
  unfold ConcurrentMCPServer.cleanupSessions
  dsimp only
  refine ⟨?_, ?_, ?_, ?_⟩
  · intro id s
    simp only [List.mem_filter, decide_eq_true_eq]
    constructor
    · rintro ⟨hmem, hdec⟩
      exact ⟨hmem, by omega⟩
    · rintro ⟨hmem, hle⟩
      exact ⟨hmem, by omega⟩
  · intro id cs
    constructor
    · intro hmem2
      have h2 := List.mem_filter.1 hmem2
      refine ⟨h2.1, ?_⟩
      rintro ⟨s, hs, hexp⟩
      have hdec := h2.2
      simp only [decide_eq_true_eq] at hdec
      apply hdec
      have hin : id ∈ (st.sessions.filter
          (fun p => decide (now - p.2.lastActivity >
            ConcurrentMCPServer.SESSION_TTL_MS +
              ConcurrentMCPServer.SESSION_GRACE_PERIOD_MS))).map Prod.fst :=
        List.mem_map.2 ⟨(id, s), List.mem_filter.2 ⟨hs, by simp; omega⟩, rfl⟩
      simpa using hin
    · rintro ⟨hmem2, hnone⟩
      apply List.mem_filter.2
      refine ⟨hmem2, ?_⟩
      simp only [decide_eq_true_eq]
      intro hcont
      have hin : id ∈ (st.sessions.filter
          (fun p => decide (now - p.2.lastActivity >
            ConcurrentMCPServer.SESSION_TTL_MS +
              ConcurrentMCPServer.SESSION_GRACE_PERIOD_MS))).map Prod.fst := by
        simpa using hcont
      obtain ⟨⟨a, b⟩, hab, heq⟩ := List.mem_map.1 hin
      obtain ⟨hmem3, hpred⟩ := List.mem_filter.1 hab
      simp only [decide_eq_true_eq] at hpred
      cases heq
      exact hnone ⟨b, hmem3, hpred⟩
  · intro c
    simp only [List.mem_flatten, List.mem_map]
    constructor
    · rintro ⟨l, ⟨⟨a, b⟩, hab, rfl⟩, hc⟩
      have hb := List.mem_filter.1 hab
      simp only [decide_eq_true_eq] at hb
      exact ⟨a, b, hb.1, hb.2, hc⟩
    · rintro ⟨id, s, hmem, hexp, hc⟩
      exact ⟨(mapGet st.sseClients id).getD [], ⟨(id, s),
        List.mem_filter.2 ⟨hmem, by simp; omega⟩, rfl⟩, hc⟩
  · rw [Nat.add_comm]
    exact length_filter_partition_prop
      (fun p => now - p.2.lastActivity >
        ConcurrentMCPServer.SESSION_TTL_MS +
          ConcurrentMCPServer.SESSION_GRACE_PERIOD_MS) st.sessions

/-- C7 (witness): the reaper evaluated at a concrete state — a session
within TTL plus grace survives, the SSE client of an expired session is
closed. -/
theorem cleanupSessions_spec_witness :
    ("new", ({ createdAt := 0, lastActivity := 500000 } : Session)) ∈
      (ConcurrentMCPServer.cleanupSessions
        { sessions := [("old", { createdAt := 0, lastActivity := 0 }),
                       ("new", { createdAt := 0, lastActivity := 500000 })],
          sseClients := [("old", [7]), ("other", [8])] }
        2000000).1.sessions ∧
    7 ∈ (ConcurrentMCPServer.cleanupSessions
        { sessions := [("old", { createdAt := 0, lastActivity := 0 }),
                       ("new", { createdAt := 0, lastActivity := 500000 })],
          sseClients := [("old", [7]), ("other", [8])] }
        2000000).2.2 := by
  have h := cleanupSessions_spec
    { sessions := [("old", { createdAt := 0, lastActivity := 0 }),
                   ("new", { createdAt := 0, lastActivity := 500000 })],
      sseClients := [("old", [7]), ("other", [8])] }
    2000000
  constructor
  · exact (h.1 "new" { createdAt := 0, lastActivity := 500000 }).mpr
      ⟨by decide, by decide⟩
  · exact (h.2.2.1 7).mpr
      ⟨"old", { createdAt := 0, lastActivity := 0 }, by decide, by decide, by decide⟩

/-- C8 (counterexample): a body carrying a `method` but no `id` is not
always answered 202 — the dispatch handles `initialize` (and the other
known methods) before the notification check, so `{ method: "initialize" }`
without an `id` returns 200 and creates a session. -/
theorem notification_initialize_counterexample :
    (ConcurrentMCPServer.handleMcpPost
      { stringify := fun _ => "",
        exec := fun _ _ => ToolCallOutcome.err "",
        runResource := fun _ => Except.error "",
        freshSessionId := "abc",
        now := 0 }
      ({} : ServerState) none { method := some "initialize" }).1.status = 200 ∧
    (ConcurrentMCPServer.handleMcpPost
      { stringify := fun _ => "",
        exec := fun _ _ => ToolCallOutcome.err "",
        runResource := fun _ => Except.error "",
        freshSessionId := "abc",
        now := 0 }
      ({} : ServerState) none { method := some "initialize" }).2.sessions.length
      = 1 := by
  exact ⟨rfl, rfl⟩

/-- C8 (amended): a POST body with a truthy `method` and a falsy `id`
(absent, `0` or `""`) is answered 202 with an empty body, provided the
request passes the HTTP rate limit, the auth gate and session validation,
and the method matches none of the dispatched branches (`initialize`,
`tools/call` with a truthy `params.name`, `tools/list`, `resources/list`,
`resources/read` with a truthy `params.uri`); those dispatched methods are
handled as normal requests even without an `id`. -/
theorem notification_202 (env : HttpPostEnv) (st : ServerState)
    (reqSessionId : Option String) (body : RpcIn)
    (hallow : env.rateLimitAllowed = true)
    (hauth : env.authGate = none)
    (hsess : reqSessionId = none ∨
      ∃ sid s, reqSessionId = some sid ∧ mapGet st.sessions sid = some s)
    (hmt : methodTruthy body.method = true)
    (hid : idTruthy body.id = false)
    (hni : body.method ≠ some "initialize")
    (htc : ¬ (body.method = some "tools/call" ∧
      truthyOpt (paramGet body.params "name") = true))
    (htl : body.method ≠ some "tools/list")
    (hrl2 : body.method ≠ some "resources/list")
    (hrr : ¬ (body.method = some "resources/read" ∧
      truthyOpt (paramGet body.params "uri") = true)) :
    (ConcurrentMCPServer.handleMcpPost env st reqSessionId body).1.status = 202 ∧
    (ConcurrentMCPServer.handleMcpPost env st reqSessionId body).1.body = none := by
  have hd : ∀ st2 : ServerState,
      (ConcurrentMCPServer.mcpDispatch env st2 body).1.status = 202 ∧
      (ConcurrentMCPServer.mcpDispatch env st2 body).1.body = none := by
    intro st2
    unfold ConcurrentMCPServer.mcpDispatch
    rw [if_neg htc]
    simp only [hauth]
    rw [if_neg htl, if_neg hrl2, if_neg hrr,
      if_pos ⟨hmt, by simp [hid]⟩]
    exact ⟨rfl, rfl⟩
  unfold ConcurrentMCPServer.handleMcpPost
  rw [if_neg (by simp [hallow]), if_neg hni]
  rcases hsess with hnone | ⟨sid, s, hsid, hlook⟩
  · rw [hnone]
    exact hd st
  · rw [hsid]
    simp only [hlook]
    exact hd _

/-- C8 (witness): a concrete notification answered 202 with empty body. -/
theorem notification_202_witness :
    (ConcurrentMCPServer.handleMcpPost
      { stringify := fun _ => "",
        exec := fun _ _ => ToolCallOutcome.err "",
        runResource := fun _ => Except.error "",
        freshSessionId := "abc",
        now := 0 }
      ({} : ServerState) none
      { method := some "notifications/initialized" }).1.status = 202 := by
  exact (notification_202
    { stringify := fun _ => "",
      exec := fun _ _ => ToolCallOutcome.err "",
      runResource := fun _ => Except.error "",
      freshSessionId := "abc",
      now := 0 }
    ({} : ServerState) none
    { method := some "notifications/initialized" }
    rfl rfl (Or.inl rfl) rfl rfl (by decide) (by decide) (by decide)
    (by decide) (by decide)).1

/-- C9: `verify` accepts iff the message carries `_hmac` and `_seq`, the
HMAC of the canonical payload verifies (the hex decodes to exactly the MAC
of the payload under the channel key), and `_seq` exceeds `lastRecvSeq`;
exactly on acceptance `lastRecvSeq` becomes `_seq` — so the accepted
sequence numbers are strictly increasing — the state is untouched on
rejection, and re-verifying an accepted message is rejected as a replay. -/
theorem messageSigner_verify_spec (mac : String → List Nat)
    (sg : MessageSigner) (idf methodf paramsf resultf errorf : Option String)
    (hmacf : Option String) (seqf : Option Int) :
    ((MessageSigner.verify mac sg
        (⟨idf, methodf, paramsf, resultf, errorf, hmacf, seqf⟩ :
          SignedMessage)).1.valid = true ↔
      (∃ h s, hmacf = some h ∧ seqf = some s ∧ sg.lastRecvSeq < s ∧
        hexToBytes h = some (mac (buildHmacPayload
          (SignedMessage.strip
            ⟨idf, methodf, paramsf, resultf, errorf, hmacf, seqf⟩) s)))) ∧
    (∀ s, (MessageSigner.verify mac sg
        (⟨idf, methodf, paramsf, resultf, errorf, hmacf, seqf⟩ :
          SignedMessage)).1.valid = true → seqf = some s →
      (MessageSigner.verify mac sg
        (⟨idf, methodf, paramsf, resultf, errorf, hmacf, seqf⟩ :
          SignedMessage)).2.lastRecvSeq = s) ∧
    ((MessageSigner.verify mac sg
        (⟨idf, methodf, paramsf, resultf, errorf, hmacf, seqf⟩ :
          SignedMessage)).1.valid = true →
      sg.lastRecvSeq < (MessageSigner.verify mac sg
        (⟨idf, methodf, paramsf, resultf, errorf, hmacf, seqf⟩ :
          SignedMessage)).2.lastRecvSeq) ∧
    ((MessageSigner.verify mac sg
        (⟨idf, methodf, paramsf, resultf, errorf, hmacf, seqf⟩ :
          SignedMessage)).1.valid = false →
      (MessageSigner.verify mac sg
        (⟨idf, methodf, paramsf, resultf, errorf, hmacf, seqf⟩ :
          SignedMessage)).2 = sg) ∧
    ((MessageSigner.verify mac sg
        (⟨idf, methodf, paramsf, resultf, errorf, hmacf, seqf⟩ :
          SignedMessage)).1.valid = true →
      (MessageSigner.verify mac
        (MessageSigner.verify mac sg
          (⟨idf, methodf, paramsf, resultf, errorf, hmacf, seqf⟩ :
            SignedMessage)).2
        (⟨idf, methodf, paramsf, resultf, errorf, hmacf, seqf⟩ :
          SignedMessage)).1.valid = false) := by
  cases hmacf with
  | none => simp [MessageSigner.verify]
  | some h =>
    cases seqf with
    | none => simp [MessageSigner.verify]
    | some s =>
      by_cases hle : s ≤ sg.lastRecvSeq
      · have hv : MessageSigner.verify mac sg
            (⟨idf, methodf, paramsf, resultf, errorf, some h, some s⟩ :
              SignedMessage) =
            ({ valid := false,
               message := SignedMessage.strip
                 ⟨idf, methodf, paramsf, resultf, errorf, some h, some s⟩,
               error := some ("Replay detected: _seq=" ++ toString s ++
                 " <= lastRecvSeq=" ++ toString sg.lastRecvSeq) }, sg) := by
          simp only [MessageSigner.verify]
          rw [if_pos hle]
        rw [hv]
        refine ⟨?_, ?_, ?_, ?_, ?_⟩
        · constructor
          · intro hcontr
            exact absurd hcontr (by simp)
          · rintro ⟨h2, s2, hh, hs, hlt, _⟩
            injection hs with hs2
            omega
        · intro s2 hcontr
          exact absurd hcontr (by simp)
        · intro hcontr
          exact absurd hcontr (by simp)
        · intro _
          rfl
        · intro hcontr
          exact absurd hcontr (by simp)
      · rcases hx : hexToBytes h with _ | hb
        · have hv : MessageSigner.verify mac sg
              (⟨idf, methodf, paramsf, resultf, errorf, some h, some s⟩ :
                SignedMessage) =
              ({ valid := false,
                 message := SignedMessage.strip
                   ⟨idf, methodf, paramsf, resultf, errorf, some h, some s⟩,
                 error := some "Invalid _hmac: not valid hex" }, sg) := by
            simp only [MessageSigner.verify]
            rw [if_neg hle, hx]
          rw [hv]
          refine ⟨?_, ?_, ?_, ?_, ?_⟩
          · constructor
            · intro hcontr
              exact absurd hcontr (by simp)
            · rintro ⟨h2, s2, hh, hs, hlt, hbytes⟩
              injection hh with hh2
              subst hh2
              rw [hx] at hbytes
              exact Option.noConfusion hbytes
          · intro s2 hcontr
            exact absurd hcontr (by simp)
          · intro hcontr
            exact absurd hcontr (by simp)
          · intro _
            rfl
          · intro hcontr
            exact absurd hcontr (by simp)
        · by_cases heq : hb = mac (buildHmacPayload
              (⟨idf, methodf, paramsf, resultf, errorf, none, none⟩ :
                SignedMessage) s)
          · have hv : MessageSigner.verify mac sg
                (⟨idf, methodf, paramsf, resultf, errorf, some h, some s⟩ :
                  SignedMessage) =
                ({ valid := true,
                   message := SignedMessage.strip
                     ⟨idf, methodf, paramsf, resultf, errorf, some h, some s⟩ },
                 { sg with lastRecvSeq := s }) := by
              simp only [MessageSigner.verify, SignedMessage.strip]
              rw [if_neg hle, hx]
              simp only
              rw [if_pos heq]
            rw [hv]
            refine ⟨?_, ?_, ?_, ?_, ?_⟩
            · constructor
              · intro _
                exact ⟨h, s, rfl, rfl, by omega, by rw [hx, heq]; rfl⟩
              · intro _
                rfl
            · intro s2 _ hs
              injection hs with hs2
              try rw [hs2]
              try rfl
            · intro _
              show sg.lastRecvSeq < s
              omega
            · intro hcontr
              exact absurd hcontr (by simp)
            · intro _
              have hv2 : MessageSigner.verify mac { sg with lastRecvSeq := s }
                  (⟨idf, methodf, paramsf, resultf, errorf, some h, some s⟩ :
                    SignedMessage) =
                  ({ valid := false,
                     message := SignedMessage.strip
                       ⟨idf, methodf, paramsf, resultf, errorf, some h, some s⟩,
                     error := some ("Replay detected: _seq=" ++ toString s ++
                       " <= lastRecvSeq=" ++ toString s) },
                   { sg with lastRecvSeq := s }) := by
                simp only [MessageSigner.verify]
                rw [if_pos (le_refl s)]
              rw [hv2]
          · have hv : MessageSigner.verify mac sg
                (⟨idf, methodf, paramsf, resultf, errorf, some h, some s⟩ :
                  SignedMessage) =
                ({ valid := false,
                   message := SignedMessage.strip
                     ⟨idf, methodf, paramsf, resultf, errorf, some h, some s⟩,
                   error := some "HMAC signature mismatch" }, sg) := by
              simp only [MessageSigner.verify, SignedMessage.strip]
              rw [if_neg hle, hx]
              simp only
              rw [if_neg heq]
            rw [hv]
            refine ⟨?_, ?_, ?_, ?_, ?_⟩
            · constructor
              · intro hcontr
                exact absurd hcontr (by simp)
              · rintro ⟨h2, s2, hh, hs, hlt, hbytes⟩
                injection hh with hh2
                injection hs with hs2
                subst hh2
                subst hs2
                rw [hx] at hbytes
                injection hbytes with hb2
                exact absurd hb2 heq
            · intro s2 hcontr
              exact absurd hcontr (by simp)
            · intro hcontr
              exact absurd hcontr (by simp)
            · intro _
              rfl
            · intro hcontr
              exact absurd hcontr (by simp)

/-- C9 (witness): a concrete accepted message whose replay is rejected and
whose acceptance advances `lastRecvSeq`. -/
theorem messageSigner_verify_spec_witness :
    (MessageSigner.verify (fun _ => [0]) { sendSeq := 0, lastRecvSeq := -1 }
      (⟨none, none, none, none, none, some "00", some 0⟩ :
        SignedMessage)).1.valid = true ∧
    (MessageSigner.verify (fun _ => [0]) { sendSeq := 0, lastRecvSeq := -1 }
      (⟨none, none, none, none, none, some "00", some 0⟩ :
        SignedMessage)).2.lastRecvSeq = 0 ∧
    (MessageSigner.verify (fun _ => [0])
      (MessageSigner.verify (fun _ => [0]) { sendSeq := 0, lastRecvSeq := -1 }
        (⟨none, none, none, none, none, some "00", some 0⟩ :
          SignedMessage)).2
      (⟨none, none, none, none, none, some "00", some 0⟩ :
        SignedMessage)).1.valid = false := by
  have h := messageSigner_verify_spec (fun _ => [0])
    { sendSeq := 0, lastRecvSeq := -1 } none none none none none
    (some "00") (some 0)
  have hvalid : (MessageSigner.verify (fun _ => [0])
      { sendSeq := 0, lastRecvSeq := -1 }
      (⟨none, none, none, none, none, some "00", some 0⟩ :
        SignedMessage)).1.valid = true :=
    h.1.mpr ⟨"00", 0, rfl, rfl, by decide, by decide⟩
  exact ⟨hvalid, h.2.1 0 hvalid rfl, h.2.2.2.2 hvalid⟩

/-- C10: `waitForSlot` contains no throwing operation (its embedding is a
total function whose only outcomes are "still waiting" or a normal return),
it returns only after some `checkLimit` call has returned `true` — which
appended that call's timestamp for the key — and every completed wait
produces `{ allowed: true, retryAfterMs: 0 }`; in particular no outcome of
the wait-mode helper equals the catch-branch "wait timed out" value, whose
`allowed` is `false`, so that branch is unreachable. -/
theorem checkHttpRateLimitWait_spec (rl : RateLimiter) (key : String)
    (nows : Nat → Int) (fuel : Nat) (r : RateCheckResult) (rl2 : RateLimiter)
    (hres : checkHttpRateLimitWait rl key nows fuel = some (r, rl2)) :
    r.allowed = true ∧ r.retryAfterMs = some 0 ∧
    (∀ (rlx : RateLimiter) (now windowMs : Int),
      r ≠ waitCatchResult rlx key now windowMs) ∧
    ∃ (j : Nat) (rlPrev : RateLimiter),
      (rlPrev.checkLimit key (nows j)).1 = true ∧
      rl2 = (rlPrev.checkLimit key (nows j)).2 ∧
      mapGet rl2.requestCounts key =
        some ((((mapGet rlPrev.requestCounts key).getD []).filter
          (fun t => nows j - t < rlPrev.windowMs)) ++ [nows j]) := by
  unfold checkHttpRateLimitWait at hres
  rcases hrun : RateLimiter.waitForSlotRun key nows fuel 0 rl with _ | rl3
  · rw [hrun] at hres
    exact Option.noConfusion hres
  · rw [hrun] at hres
    injection hres with hpair
    injection hpair with hr hrl
    subst hr
    subst hrl
    obtain ⟨j, rlPrev, htrue, hst⟩ := waitForSlotRun_some key nows fuel 0 rl rl3 hrun
    refine ⟨rfl, rfl, ?_, j, rlPrev, htrue, hst, ?_⟩
    · intro rlx now windowMs hcontr
      have : ({ allowed := true, retryAfterMs := some 0 } :
          RateCheckResult).allowed = false := by
        rw [hcontr]
        rfl
      exact Bool.noConfusion this
    · rw [hst]
      exact (checkLimit_run rlPrev key (nows j)).2.2 htrue

/-- C10 (witness): a completed wait on a concrete limiter, with its
`allowed = true` outcome obtained through the specification theorem. -/
theorem checkHttpRateLimitWait_spec_witness :
    checkHttpRateLimitWait
      { windowMs := 10, maxRequests := 1, requestCounts := [] }
      "k" (fun _ => 0) 1 =
      some ({ allowed := true, retryAfterMs := some 0 },
        { windowMs := 10, maxRequests := 1, requestCounts := [("k", [0])] }) ∧
    ({ allowed := true, retryAfterMs := some 0 } : RateCheckResult).allowed =
      true := by
  constructor
  · rfl
  · exact (checkHttpRateLimitWait_spec
      { windowMs := 10, maxRequests := 1, requestCounts := [] } "k"
      (fun _ => 0) 1
      { allowed := true, retryAfterMs := some 0 }
      { windowMs := 10, maxRequests := 1, requestCounts := [("k", [0])] }
      rfl).1
